import Mathlib

/-!
Verification development for a chunked bulk-ingestion pipeline with two
storage backends (document-store and relational) and a performance harness.

The definitions below are a shallow embedding of the Python sources:
  - single/PostgreSQL.py   (single-node relational backend)
  - multi/DistributedPostgreSQL.py (distributed relational backend)
  - single/MongoDB.py      (single-node document backend)
  - multi/DistributedMongodb.py (distributed document backend)
  - Performance.py         (measurement harness)

Data-frame chunks are lists of association-list records; numeric measurement
values are rationals; fallible steps return Except/Option.
-/

set_option autoImplicit false

/-- A cell value of a data-frame column or a stored field.  `vnull` is the
null sentinel (Python `None` / NaN). -/
inductive Val where
  | vnull : Val
  | vint : Int → Val
  | vstr : String → Val
deriving DecidableEq

/-- One row / document: an ordered association list from column names to
values, mirroring a pandas row or a Python dict (insertion ordered). -/
abbrev Record := List (String × Val)

/-- A chunk of rows produced by pandas read_csv(..., chunksize=...). -/
abbrev Chunk := List Record

/-- First-match lookup in an association list (Python dict access /
pandas column access on a row). -/
def assocGet {α : Type} : List (String × α) → String → Option α
  | [], _ => none
  | (k0, v0) :: rest, k => if k0 = k then some v0 else assocGet rest k

/-- Python dict assignment d[k] = v: replaces the value at the first
occurrence of k, or appends a new binding at the end. -/
def assocSet {α : Type} : List (String × α) → String → α → List (String × α)
  | [], k, v => [(k, v)]
  | (k0, v0) :: rest, k, v =>
      if k0 = k then (k0, v) :: rest else (k0, v0) :: assocSet rest k v

theorem assocGet_append_left {α : Type} (r s : List (String × α)) (col : String) (v : α)
    (h : assocGet r col = some v) : assocGet (r ++ s) col = some v := by
  induction r with
  | nil => simp [assocGet] at h
  | cons kv rest ih =>
      obtain ⟨k0, v0⟩ := kv
      by_cases hk : k0 = col
      · simp [assocGet, hk] at h ⊢; exact h
      · simp [assocGet, hk] at h ⊢; exact ih h

theorem assocGet_append_right {α : Type} (r s : List (String × α)) (col : String)
    (h : assocGet r col = none) : assocGet (r ++ s) col = assocGet s col := by
  induction r with
  | nil => simp
  | cons kv rest ih =>
      obtain ⟨k0, v0⟩ := kv
      by_cases hk : k0 = col
      · simp [assocGet, hk] at h
      · simp [assocGet, hk] at h ⊢; exact ih h

theorem assocGet_set_self {α : Type} (m : List (String × α)) (k : String) (v : α) :
    assocGet (assocSet m k v) k = some v := by
  induction m with
  | nil => simp [assocSet, assocGet]
  | cons kv rest ih =>
      obtain ⟨k0, v0⟩ := kv
      by_cases hk : k0 = k
      · simp [assocSet, hk, assocGet]
      · simp [assocSet, hk, assocGet, ih]

theorem assocGet_set_ne {α : Type} (m : List (String × α)) (k k' : String) (v : α)
    (h : k' ≠ k) : assocGet (assocSet m k v) k' = assocGet m k' := by
  induction m with
  | nil =>
      have h' : ¬ k = k' := fun hh => h hh.symm
      simp [assocSet, assocGet, h']
  | cons kv rest ih =>
      obtain ⟨k0, v0⟩ := kv
      by_cases hk : k0 = k
      · subst hk
        have h' : ¬ k0 = k' := fun hh => h hh.symm
        simp [assocSet, assocGet, h', ih]
      · simp only [assocSet, hk, if_false]
        by_cases hk' : k0 = k'
        · simp [assocGet, hk']
        · simp [assocGet, hk', ih]

/-- Positional enumeration starting at n (Python enumerate / range pairing). -/
def enumF {α : Type} (n : Nat) : List α → List (Nat × α)
  | [] => []
  | a :: as => (n, a) :: enumF (n + 1) as

theorem enumF_get {α : Type} (l : List α) :
    ∀ (n i : Nat), (enumF n l)[i]? = (l[i]?).map (fun a => (n + i, a)) := by
  induction l with
  | nil => intro n i; simp [enumF]
  | cons a as ih =>
      intro n i
      cases i with
      | zero => simp [enumF]
      | succ j =>
          simp only [enumF, List.getElem?_cons_succ]
          rw [ih (n + 1) j]
          have : n + 1 + j = n + (j + 1) := by omega
          simp [this]

theorem enumF_length {α : Type} (l : List α) : ∀ n, (enumF n l).length = l.length := by
  induction l with
  | nil => intro n; simp [enumF]
  | cons a as ih => intro n; simp [enumF, ih]

/-- Slicing a list into consecutive batches of size sz
(Python: for i in range(0, len(data), batch_size): data[i:i+batch_size]).
Fueled recursion; the fuel l.length suffices for sz ≥ 1. -/
def listChunksAux {α : Type} : Nat → List α → Nat → List (List α)
  | 0, _, _ => []
  | _, [], _ => []
  | fuel + 1, a :: as, sz =>
      (a :: as.take (sz - 1)) :: listChunksAux fuel (as.drop (sz - 1)) sz

def listChunks {α : Type} (l : List α) (sz : Nat) : List (List α) :=
  listChunksAux l.length l sz

/-- Column presence test on a chunk (pandas chunk.columns membership; all
rows of a read_csv chunk share the same columns, so the first row is the
representative). -/
def Chunk.hasCol (c : Chunk) (col : String) : Bool :=
  match c with
  | [] => false
  | r :: _ => (assocGet r col).isSome

/-- pandas chunk[col] = v : append the constant column to every row. -/
def addColAll (c : Chunk) (col : String) (v : Val) : Chunk :=
  c.map (fun r => r ++ [(col, v)])

/-- Source: if 'id' not in chunk.columns: chunk['id'] = range(1, len(chunk)+1).
Row i (0-based) receives id i+1. -/
def addIdIfMissing (c : Chunk) : Chunk :=
  if Chunk.hasCol c "id" then c
  else (enumF 0 c).map (fun p => p.2 ++ [("id", Val.vint (Int.ofNat p.1 + 1))])

/-- Source loop: for col in required_columns: if col not in chunk.columns:
chunk[col] = None. -/
def ensureRequired : List String → Chunk → Chunk
  | [], c => c
  | col :: rest, c =>
      ensureRequired rest (if Chunk.hasCol c col then c else addColAll c col Val.vnull)

/-- pandas column selection chunk[[c1, ..., ck]], then conversion of each row
to a record in selection order. -/
def selectCols (c : Chunk) (sel : List String) : Chunk :=
  c.map (fun r => sel.map (fun col => (col, (assocGet r col).getD Val.vnull)))

/-- pandas rename(columns=m): relabel the keys of every row. -/
def renameRec (m : List (String × String)) (r : Record) : Record :=
  r.map (fun kv => ((assocGet m kv.1).getD kv.1, kv.2))

def renameChunk (m : List (String × String)) (c : Chunk) : Chunk :=
  c.map (renameRec m)

theorem hasCol_false_of_all_none (c : Chunk) (col : String)
    (h : ∀ r ∈ c, assocGet r col = none) : Chunk.hasCol c col = false := by
  cases c with
  | nil => rfl
  | cons r rest => simp [Chunk.hasCol, h r (by simp)]

theorem addIdIfMissing_get_missing (ch : Chunk) (i : Nat) (r : Record)
    (hnone : ∀ row ∈ ch, assocGet row "id" = none)
    (hi : ch[i]? = some r) :
    (addIdIfMissing ch)[i]? = some (r ++ [("id", Val.vint (Int.ofNat i + 1))]) := by
  have hcol : Chunk.hasCol ch "id" = false := hasCol_false_of_all_none ch "id" hnone
  simp only [addIdIfMissing, hcol, Bool.false_eq_true, if_false]
  rw [List.getElem?_map, enumF_get, hi]
  simp

theorem addIdIfMissing_get (ch : Chunk) (i : Nat) (r : Record)
    (hi : ch[i]? = some r) :
    (addIdIfMissing ch)[i]? = some r ∨
    (addIdIfMissing ch)[i]? = some (r ++ [("id", Val.vint (Int.ofNat i + 1))]) := by
  by_cases hcol : Chunk.hasCol ch "id"
  · left; simp [addIdIfMissing, hcol, hi]
  · right
    simp only [addIdIfMissing, hcol, Bool.false_eq_true, if_false]
    rw [List.getElem?_map, enumF_get, hi]
    simp

theorem addIdIfMissing_length (c : Chunk) : (addIdIfMissing c).length = c.length := by
  by_cases hcol : Chunk.hasCol c "id" <;>
    simp [addIdIfMissing, hcol, enumF_length]

theorem ensureRequired_shape : ∀ (req : List String) (ch : Chunk),
    ∃ suf : Record, ensureRequired req ch = ch.map (fun r => r ++ suf) := by
  intro req
  induction req with
  | nil =>
      intro ch
      exact ⟨[], by simp [ensureRequired]⟩
  | cons col rest ih =>
      intro ch
      by_cases hcol : Chunk.hasCol ch col
      · simpa [ensureRequired, hcol] using ih ch
      · obtain ⟨suf, hsuf⟩ := ih (addColAll ch col Val.vnull)
        refine ⟨[(col, Val.vnull)] ++ suf, ?_⟩
        simp only [ensureRequired, hcol, Bool.false_eq_true, if_false]
        rw [hsuf]
        simp [addColAll, List.map_map, Function.comp]

theorem ensureRequired_length (req : List String) (ch : Chunk) :
    (ensureRequired req ch).length = ch.length := by
  obtain ⟨suf, hsuf⟩ := ensureRequired_shape req ch
  simp [hsuf]

theorem ensureRequired_keeps : ∀ (req : List String) (ch : Chunk) (col : String) (v : Val),
    (∀ r ∈ ch, assocGet r col = some v) →
    ∀ r ∈ ensureRequired req ch, assocGet r col = some v := by
  intro req
  induction req with
  | nil => intro ch col v h; simpa [ensureRequired] using h
  | cons x rest ih =>
      intro ch col v h
      by_cases hx : Chunk.hasCol ch x
      · simp only [ensureRequired, hx, if_true]
        exact ih ch col v h
      · simp only [ensureRequired, hx, Bool.false_eq_true, if_false]
        refine ih (addColAll ch x Val.vnull) col v ?_
        intro r hr
        simp only [addColAll, List.mem_map] at hr
        obtain ⟨r0, hr0, rfl⟩ := hr
        exact assocGet_append_left r0 _ col v (h r0 hr0)

theorem ensureRequired_fills : ∀ (req : List String) (ch : Chunk) (col : String),
    col ∈ req → (∀ r ∈ ch, assocGet r col = none) →
    ∀ r ∈ ensureRequired req ch, assocGet r col = some Val.vnull := by
  intro req
  induction req with
  | nil => intro ch col hmem; simp at hmem
  | cons x rest ih =>
      intro ch col hmem h
      by_cases hxc : x = col
      · subst hxc
        have hcol : Chunk.hasCol ch x = false := hasCol_false_of_all_none ch x h
        simp only [ensureRequired, hcol, Bool.false_eq_true, if_false]
        refine ensureRequired_keeps rest (addColAll ch x Val.vnull) x Val.vnull ?_
        intro r hr
        simp only [addColAll, List.mem_map] at hr
        obtain ⟨r0, hr0, rfl⟩ := hr
        rw [assocGet_append_right r0 _ x (h r0 hr0)]
        simp [assocGet]
      · have hcol' : col ∈ rest := by
          cases hmem with
          | head => exact absurd rfl hxc
          | tail _ htl => exact htl
        by_cases hx : Chunk.hasCol ch x
        · simp only [ensureRequired, hx, if_true]
          exact ih ch col hcol' h
        · simp only [ensureRequired, hx, Bool.false_eq_true, if_false]
          refine ih (addColAll ch x Val.vnull) col hcol' ?_
          intro r hr
          simp only [addColAll, List.mem_map] at hr
          obtain ⟨r0, hr0, rfl⟩ := hr
          rw [assocGet_append_right r0 _ col (h r0 hr0)]
          simp [assocGet, hxc]

theorem selectCols_length (ch : Chunk) (sel : List String) :
    (selectCols ch sel).length = ch.length := by
  simp [selectCols]

theorem selectCols_get (ch : Chunk) (sel : List String) (i : Nat) :
    (selectCols ch sel)[i]? =
      (ch[i]?).map (fun r => sel.map (fun col => (col, (assocGet r col).getD Val.vnull))) := by
  simp [selectCols]

theorem assocGet_selRow (sel : List String) (r : Record) (col : String) (hmem : col ∈ sel) :
    assocGet (sel.map (fun col2 => (col2, (assocGet r col2).getD Val.vnull))) col =
      some ((assocGet r col).getD Val.vnull) := by
  induction sel with
  | nil => simp at hmem
  | cons s rest ih =>
      by_cases hs : s = col
      · subst hs; simp [assocGet]
      · have : col ∈ rest := by
          cases hmem with
          | head => exact absurd rfl hs
          | tail _ htl => exact htl
        simp [assocGet, hs, ih this]

theorem renameChunk_length (m : List (String × String)) (ch : Chunk) :
    (renameChunk m ch).length = ch.length := by
  simp [renameChunk]

/-- The id of a row bound for a relational table (the id column of the
row record). -/
def rowIdOf (r : Record) : Val := (assocGet r "id").getD Val.vnull

/-- Whether a row with the given id already exists in the table. -/
def idPresent (t : List Record) (v : Val) : Bool :=
  t.any (fun r => decide (rowIdOf r = v))

/-- INSERT ... ON CONFLICT (id) DO NOTHING for a single row: a duplicate id
is skipped, never overwritten (single/PostgreSQL.py, lines 106-130;
multi/DistributedPostgreSQL.py merge step, lines 200-204). -/
def pgInsertRow (t : List Record) (r : Record) : List Record :=
  if idPresent t (rowIdOf r) then t else t ++ [r]

/-- cursor.executemany of the conflict-skipping insert over a row list,
processed in order. -/
def pgInsertMany (t : List Record) (rs : List Record) : List Record :=
  rs.foldl pgInsertRow t

/-- Successive conflict-skipping loads of several row lists into one table. -/
def insertFold (t : List Record) (ds : List (List Record)) : List Record :=
  ds.foldl pgInsertMany t

theorem pgInsertRow_present (t : List Record) (r : Record)
    (h : idPresent t (rowIdOf r) = true) : pgInsertRow t r = t := by
  simp [pgInsertRow, h]

theorem idPresent_insertRow_mono (t : List Record) (r : Record) (v : Val)
    (h : idPresent t v = true) : idPresent (pgInsertRow t r) v = true := by
  by_cases hp : idPresent t (rowIdOf r) = true
  · rw [pgInsertRow, if_pos hp]; exact h
  · rw [pgInsertRow, if_neg hp]
    simp only [idPresent, List.any_append] at h ⊢
    simp [h]

theorem idPresent_insertRow_self (t : List Record) (r : Record) :
    idPresent (pgInsertRow t r) (rowIdOf r) = true := by
  by_cases hp : idPresent t (rowIdOf r) = true
  · rw [pgInsertRow, if_pos hp]; exact hp
  · rw [pgInsertRow, if_neg hp]
    simp only [idPresent, List.any_append]
    simp [idPresent]

theorem idPresent_insertMany_mono (rs : List Record) :
    ∀ (t : List Record) (v : Val), idPresent t v = true →
      idPresent (pgInsertMany t rs) v = true := by
  induction rs with
  | nil => intro t v h; simpa [pgInsertMany]
  | cons r rest ih =>
      intro t v h
      simp only [pgInsertMany, List.foldl_cons]
      exact ih (pgInsertRow t r) v (idPresent_insertRow_mono t r v h)

theorem idPresent_insertMany_self (rs : List Record) :
    ∀ (t : List Record) (r : Record), r ∈ rs →
      idPresent (pgInsertMany t rs) (rowIdOf r) = true := by
  induction rs with
  | nil => intro t r h; simp at h
  | cons a rest ih =>
      intro t r h
      simp only [pgInsertMany, List.foldl_cons]
      cases h with
      | head =>
          exact idPresent_insertMany_mono rest (pgInsertRow t a) (rowIdOf a)
            (idPresent_insertRow_self t a)
      | tail _ htl => exact ih (pgInsertRow t a) r htl

theorem pgInsertMany_all_present (rs : List Record) :
    ∀ (t : List Record), (∀ r ∈ rs, idPresent t (rowIdOf r) = true) →
      pgInsertMany t rs = t := by
  induction rs with
  | nil => intro t _; rfl
  | cons a rest ih =>
      intro t h
      have ha : pgInsertRow t a = t := pgInsertRow_present t a (h a (by simp))
      simp only [pgInsertMany, List.foldl_cons, ha]
      exact ih t (fun r hr => h r (by simp [hr]))

theorem pgInsertMany_idem (t : List Record) (rs : List Record) :
    pgInsertMany (pgInsertMany t rs) rs = pgInsertMany t rs :=
  pgInsertMany_all_present rs (pgInsertMany t rs)
    (fun r hr => idPresent_insertMany_self rs t r hr)

theorem idPresent_insertFold_mono (ds : List (List Record)) :
    ∀ (t : List Record) (v : Val), idPresent t v = true →
      idPresent (insertFold t ds) v = true := by
  induction ds with
  | nil => intro t v h; simpa [insertFold]
  | cons d rest ih =>
      intro t v h
      simp only [insertFold, List.foldl_cons]
      exact ih (pgInsertMany t d) v (idPresent_insertMany_mono d t v h)

theorem idPresent_insertFold_self (ds : List (List Record)) :
    ∀ (t : List Record) (d : List Record) (r : Record), d ∈ ds → r ∈ d →
      idPresent (insertFold t ds) (rowIdOf r) = true := by
  induction ds with
  | nil => intro t d r h _; simp at h
  | cons d0 rest ih =>
      intro t d r hd hr
      simp only [insertFold, List.foldl_cons]
      cases hd with
      | head =>
          exact idPresent_insertFold_mono rest (pgInsertMany t d0) (rowIdOf r)
            (idPresent_insertMany_self d0 t r hr)
      | tail _ htl => exact ih (pgInsertMany t d0) d r htl hr

theorem insertFold_all_present (ds : List (List Record)) :
    ∀ (t : List Record), (∀ d ∈ ds, ∀ r ∈ d, idPresent t (rowIdOf r) = true) →
      insertFold t ds = t := by
  induction ds with
  | nil => intro t _; rfl
  | cons d rest ih =>
      intro t h
      have hd : pgInsertMany t d = t :=
        pgInsertMany_all_present d t (fun r hr => h d (by simp) r hr)
      simp only [insertFold, List.foldl_cons, hd]
      exact ih t (fun d2 hd2 r hr => h d2 (by simp [hd2]) r hr)

theorem insertFold_idem (t : List Record) (ds : List (List Record)) :
    insertFold (insertFold t ds) ds = insertFold t ds :=
  insertFold_all_present ds (insertFold t ds)
    (fun d hd r hr => idPresent_insertFold_self ds t d r hd hr)

/-- Pairwise-distinct ids in a table (the PRIMARY KEY invariant). -/
def idNodup (t : List Record) : Prop := (t.map rowIdOf).Nodup

theorem idNodup_insertRow (t : List Record) (r : Record)
    (h : idNodup t) : idNodup (pgInsertRow t r) := by
  by_cases hp : idPresent t (rowIdOf r)
  · simpa [pgInsertRow, hp]
  · simp only [pgInsertRow, hp, Bool.false_eq_true, if_false]
    simp only [idNodup, List.map_append, List.map_cons, List.map_nil]
    rw [List.nodup_append]
    refine ⟨h, by simp, ?_⟩
    intro a ha
    simp only [idPresent, List.any_eq_true, decide_eq_true_eq] at hp
    simp only [List.mem_map] at ha
    obtain ⟨r0, hr0, rfl⟩ := ha
    simp only [List.mem_singleton]
    intro hc
    exact hp ⟨r0, hr0, hc⟩

theorem idNodup_insertMany (rs : List Record) :
    ∀ (t : List Record), idNodup t → idNodup (pgInsertMany t rs) := by
  induction rs with
  | nil => intro t h; simpa [pgInsertMany]
  | cons r rest ih =>
      intro t h
      simp only [pgInsertMany, List.foldl_cons]
      exact ih (pgInsertRow t r) (idNodup_insertRow t r h)

/-- Column selections of the 5-minute shape (single/PostgreSQL.py lines
105-130 and multi/DistributedPostgreSQL.py lines 113-122). -/
def congCols5 : List String :=
  ["id", "offer_date", "offer_day", "offer_hour", "event_no",
   "congestion_degree", "congestion_length"]

def roadCols5 : List String :=
  ["id", "pref_no", "course_no", "course_name", "dir_name", "low_kp",
   "low_latitude", "low_longitude", "low_altitude", "low_spot_name",
   "low_cityname_code", "up_kp", "up_latitude", "up_longitude",
   "up_altitude", "up_spot_name", "up_cityname_code"]

def regSelCols5 : List String :=
  ["id", "offer_date", "event_no", "event_seq", "regulation", "link_distance", "reason"]

def regCols5dist : List String :=
  ["id", "time", "event_no", "event_seq", "regulation", "link_distance", "reason"]

/-- The three 5-minute tables of a relational backend. -/
@[ext] structure PGDB5 where
  congestion : List Record
  road : List Record
  regulation : List Record
deriving DecidableEq

/-- Row data sent to the congestion table for one chunk (after the
Unnamed: 0 → id rename). -/
def congData5 (ch : Chunk) : List Record :=
  selectCols (renameChunk [("Unnamed: 0", "id")] ch) congCols5

def roadData5 (ch : Chunk) : List Record :=
  selectCols (renameChunk [("Unnamed: 0", "id")] ch) roadCols5

/-- Single backend: select then rename offer_date → time
(single/PostgreSQL.py lines 124-125). -/
def regData5single (ch : Chunk) : List Record :=
  renameChunk [("offer_date", "time")]
    (selectCols (renameChunk [("Unnamed: 0", "id")] ch) regSelCols5)

/-- Distributed backend: rename offer_date → time on the chunk then select
(multi/DistributedPostgreSQL.py lines 119-122). -/
def regData5dist (ch : Chunk) : List Record :=
  selectCols (renameChunk [("offer_date", "time")] (renameChunk [("Unnamed: 0", "id")] ch))
    regCols5dist

/-- single/PostgreSQL.py insert_5min, effect of one chunk: three
executemany inserts with ON CONFLICT (id) DO NOTHING. -/
def pgInsert5minChunk (db : PGDB5) (ch : Chunk) : PGDB5 :=
  { congestion := pgInsertMany db.congestion (congData5 ch),
    road := pgInsertMany db.road (roadData5 ch),
    regulation := pgInsertMany db.regulation (regData5single ch) }

/-- single/PostgreSQL.py insert_5min over the chunk sequence produced by
read_csv(..., chunksize=1000). -/
def pgInsert5min (db : PGDB5) (chunks : List Chunk) : PGDB5 :=
  chunks.foldl pgInsert5minChunk db

/-- State touched by the distributed backend's staged-merge load
(multi/DistributedPostgreSQL.py insert_data): the target table, the
ephemeral staging (TEMP) table and the temporary CSV buffer file. -/
structure StagingState where
  target : List Record
  stagingExists : Bool
  stagingRows : List Record
  tempFileExists : Bool
deriving DecidableEq

/-- The try-block of insert_data with failure injection.  failAt means an
exception is raised at that step: 0 = CREATE TEMP TABLE, 1 = temporary CSV
write, 2 = COPY ... FROM STDIN, 3 = merge INSERT ... ON CONFLICT DO
NOTHING.  The CSV file exists as soon as open(temp_file, 'w') ran, even if
the write then fails. -/
def insertDataBody (t : List Record) (d : List Record) (failAt : Option Nat) :
    StagingState × Bool :=
  let s0 : StagingState := ⟨t, false, [], false⟩
  if failAt = some 0 then (s0, false) else
  let s1 := { s0 with stagingExists := true }
  let s2 := { s1 with tempFileExists := true }
  if failAt = some 1 then (s2, false) else
  if failAt = some 2 then (s2, false) else
  let s3 := { s2 with stagingRows := d }
  if failAt = some 3 then (s3, false) else
  ({ s3 with target := pgInsertMany s3.target d }, true)

/-- The finally-block of insert_data: DROP TABLE IF EXISTS temp_table and
os.remove(temp_file) if it exists. -/
def releaseStaging (s : StagingState) : StagingState :=
  { s with stagingExists := false, stagingRows := [], tempFileExists := false }

/-- multi/DistributedPostgreSQL.py insert_data (lines 173-211): the
try-block followed unconditionally by the finally-block.  The second
component reports whether the call returned normally (true) or the
injected exception propagates (false). -/
def runInsertData (t : List Record) (d : List Record) (failAt : Option Nat) :
    StagingState × Bool :=
  let r := insertDataBody t d failAt
  (releaseStaging r.1, r.2)

/-- Net effect of a successful staged-merge load on the target table. -/
def distInsertDataTarget (t : List Record) (d : List Record) : List Record :=
  (runInsertData t d none).1.target

/-- multi/DistributedPostgreSQL.py insert_5min, effect of one chunk: three
staged-merge loads. -/
def distInsert5minChunk (db : PGDB5) (ch : Chunk) : PGDB5 :=
  { congestion := distInsertDataTarget db.congestion (congData5 ch),
    road := distInsertDataTarget db.road (roadData5 ch),
    regulation := distInsertDataTarget db.regulation (regData5dist ch) }

/-- multi/DistributedPostgreSQL.py insert_5min over the chunk sequence
(chunksize=10000). -/
def distInsert5min (db : PGDB5) (chunks : List Chunk) : PGDB5 :=
  chunks.foldl distInsert5minChunk db

theorem distInsertDataTarget_eq (t d : List Record) :
    distInsertDataTarget t d = pgInsertMany t d := rfl

theorem pgInsert5min_decomp : ∀ (chunks : List Chunk) (db : PGDB5),
    pgInsert5min db chunks =
      { congestion := insertFold db.congestion (chunks.map congData5),
        road := insertFold db.road (chunks.map roadData5),
        regulation := insertFold db.regulation (chunks.map regData5single) } := by
  intro chunks
  induction chunks with
  | nil => intro db; simp [pgInsert5min, insertFold]
  | cons ch rest ih =>
      intro db
      simp only [pgInsert5min, List.foldl_cons, List.map_cons]
      rw [show rest.foldl pgInsert5minChunk (pgInsert5minChunk db ch) =
            pgInsert5min (pgInsert5minChunk db ch) rest from rfl, ih]
      simp [pgInsert5minChunk, insertFold]

theorem distInsert5min_decomp : ∀ (chunks : List Chunk) (db : PGDB5),
    distInsert5min db chunks =
      { congestion := insertFold db.congestion (chunks.map congData5),
        road := insertFold db.road (chunks.map roadData5),
        regulation := insertFold db.regulation (chunks.map regData5dist) } := by
  intro chunks
  induction chunks with
  | nil => intro db; simp [distInsert5min, insertFold]
  | cons ch rest ih =>
      intro db
      simp only [distInsert5min, List.foldl_cons, List.map_cons]
      rw [show rest.foldl distInsert5minChunk (distInsert5minChunk db ch) =
            distInsert5min (distInsert5minChunk db ch) rest from rfl, ih]
      simp [distInsert5minChunk, distInsertDataTarget_eq, insertFold]

/-- Document-store state: an auto-increment ObjectId counter and the named
collections.  Every stored document is a pair of its server-assigned _id
(inserted documents carry no _id field, so the server generates a fresh
one) and its fields. -/
structure MState where
  nextOid : Nat
  colls : List (String × List (Val × Record))
deriving DecidableEq

def emptyM : MState := ⟨0, []⟩

def getCollM (st : MState) (name : String) : List (Val × Record) :=
  (assocGet st.colls name).getD []

/-- collection.insert_many(batch): appends every document with a fresh
server-generated _id; no duplicate check involves the documents' own id
field. -/
def insertManyM (st : MState) (name : String) (docs : List Record) : MState :=
  { nextOid := st.nextOid + docs.length,
    colls := assocSet st.colls name
      (getCollM st name ++
        (enumF st.nextOid docs).map (fun p => (Val.vint (Int.ofNat p.1), p.2))) }

/-- single/MongoDB.py batch_insert (batch_size=100) and
multi/DistributedMongodb.py batch_insert (batch_size=10000). -/
def batchInsertM (st : MState) (name : String) (docs : List Record) (bsz : Nat) : MState :=
  (listChunks docs bsz).foldl (fun a b => insertManyM a name b) st

/-- Renames applied to the 5-minute road record set by the document
backends (single/MongoDB.py lines 77-86). -/
def road5Renames : List (String × String) :=
  [("course_name", "roadname"), ("dir_name", "direction"),
   ("low_spot_name", "dwlocation"), ("low_latitude", "dwlatitude"),
   ("low_longitude", "dwlongitude"), ("up_spot_name", "uplocation"),
   ("up_latitude", "uplatitude"), ("up_longitude", "uplongitude")]

/-- single/MongoDB.py insert_5min, effect of one chunk. -/
def mongoInsert5minChunk (bsz : Nat) (st : MState) (ch : Chunk) : MState :=
  let c1 := renameChunk [("Unnamed: 0", "id")] ch
  let congestionData := selectCols c1 congCols5
  let st1 := batchInsertM st "congestion" congestionData bsz
  let roadData := renameChunk road5Renames (selectCols c1 roadCols5)
  let st2 := batchInsertM st1 "road" roadData bsz
  let regulationData := renameChunk [("offer_date", "time")] (selectCols c1 regSelCols5)
  batchInsertM st2 "regulation" regulationData bsz

/-- single/MongoDB.py insert_5min over the chunk sequence
(chunksize=100; the distributed variant is identical with
chunksize=batch_size=10000). -/
def mongoInsert5min (bsz : Nat) (st : MState) (chunks : List Chunk) : MState :=
  chunks.foldl (mongoInsert5minChunk bsz) st

/-- The fixed required-column list of the hourly shape
(single/MongoDB.py lines 109-110). -/
def required1h : List String :=
  ["id", "time", "allCount", "lightCongestion", "heavyCongestion",
   "averageLength", "maxLength", "congestionTime", "congestionAmount", "linkLength"]

def road1hCols : List String :=
  ["id", "roadName", "direction", "dwLocation", "dwLatitude", "dwLongitude",
   "upLocation", "upLatitude", "upLongitude"]

def road1hRenames : List (String × String) :=
  [("roadName", "roadname"), ("dwLocation", "dwlocation"),
   ("dwLatitude", "dwlatitude"), ("dwLongitude", "dwlongitude"),
   ("upLocation", "uplocation"), ("upLatitude", "uplatitude"),
   ("upLongitude", "uplongitude")]

/-- The chunk after the hourly preprocessing: synthesize id if absent, then
null-fill the missing required columns. -/
def prep1hour (ch : Chunk) : Chunk :=
  ensureRequired required1h (addIdIfMissing ch)

/-- The congestion-hourly record set mapped from one chunk
(single/MongoDB.py line 116). -/
def cong1hRecords (ch : Chunk) : List Record :=
  selectCols (prep1hour ch) required1h

/-- The road-hourly record set mapped from one chunk
(single/MongoDB.py lines 120-130). -/
def road1hRecords (ch : Chunk) : List Record :=
  renameChunk road1hRenames (selectCols (prep1hour ch) road1hCols)

/-- single/MongoDB.py insert_1hour, effect of one chunk. -/
def mongoInsert1hourChunk (bsz : Nat) (st : MState) (ch : Chunk) : MState :=
  let st1 := batchInsertM st "congestion_1hour" (cong1hRecords ch) bsz
  batchInsertM st1 "road_1hour" (road1hRecords ch) bsz

/-- single/MongoDB.py insert_1hour over the chunk sequence (chunksize=100;
the distributed variant is identical with chunksize=batch_size=10000). -/
def mongoInsert1hour (bsz : Nat) (st : MState) (chunks : List Chunk) : MState :=
  chunks.foldl (mongoInsert1hourChunk bsz) st

/-- The ids carried by the documents of a collection (their id field, not
the server-side _id). -/
def collIds (st : MState) (name : String) : List (Option Val) :=
  (getCollM st name).map (fun d => assocGet d.2 "id")

/-- Whether the id fields in a collection are pairwise distinct. -/
def collIdsUnique (st : MState) (name : String) : Bool :=
  decide (collIds st name).Nodup

/-- A relational database as the set of currently existing tables with
their rows. -/
abbrev PgTables := List (String × List Record)

/-- DROP TABLE IF EXISTS name. -/
def dropTable (ts : PgTables) (name : String) : PgTables :=
  ts.filter (fun kv => decide (kv.1 ≠ name))

/-- single/PostgreSQL.py delete (lines 27-47): only the scopes "5min",
"1hour", "geography" and "all" are handled; any other operation string
matches no branch. -/
def pgDelete (ts : PgTables) (operation : String) : PgTables :=
  let t1 := if operation = "5min" ∨ operation = "all" then
      dropTable (dropTable (dropTable ts "congestion") "road") "regulation"
    else ts
  let t2 := if operation = "1hour" ∨ operation = "all" then
      dropTable (dropTable t1 "congestion_1hour") "road_1hour"
    else t1
  if operation = "geography" ∨ operation = "all" then dropTable t2 "geography" else t2

/-- multi/DistributedPostgreSQL.py delete (lines 29-53): loops over the
fixed table lists; again no row: branch. -/
def distPgDelete (ts : PgTables) (operation : String) : PgTables :=
  let t1 := if operation = "5min" ∨ operation = "all" then
      (["congestion", "road", "regulation"]).foldl dropTable ts
    else ts
  if operation = "1hour" ∨ operation = "all" then
    (["congestion_1hour", "road_1hour"]).foldl dropTable t1
  else t1

/-- Python str.split(sep) for a single-character separator, over the
character list of the string. -/
def splitCharAux (sep : Char) : List Char → List Char → List String
  | [], acc => [String.mk acc.reverse]
  | chh :: rest, acc =>
      if chh = sep then String.mk acc.reverse :: splitCharAux sep rest []
      else splitCharAux sep rest (chh :: acc)

/-- operation.split(":"). -/
def splitColon (s : String) : List String :=
  splitCharAux ':' s.data []

/-- operation.startswith("row:"). -/
def rowPrefixed (s : String) : Bool :=
  decide (s.data.take 4 = ['r', 'o', 'w', ':'])

/-- collection.delete_one({_id : key}): removes the first document whose
_id equals key; removes nothing when no document matches. -/
def deleteOneDocs : List (Val × Record) → Val → List (Val × Record)
  | [], _ => []
  | d :: rest, key => if d.1 = key then rest else d :: deleteOneDocs rest key

def dropCollM (st : MState) (name : String) : MState :=
  { st with colls := st.colls.filter (fun kv => decide (kv.1 ≠ name)) }

def setCollM (st : MState) (name : String) (docs : List (Val × Record)) : MState :=
  { st with colls := assocSet st.colls name docs }

/-- The row: branch of the document backends' delete: delete_one on the
_id equal to the id substring (a string, compared against the
server-generated _id values). -/
def mongoDeleteRow (st : MState) (cname : String) (docId : String) : MState :=
  setCollM st cname (deleteOneDocs (getCollM st cname) (Val.vstr docId))

/-- single/MongoDB.py delete (lines 21-41); the distributed variant
(multi/DistributedMongodb.py lines 25-48) is identical. -/
def mongoDelete (st : MState) (operation : String) : MState :=
  let st1 := if operation = "5min" ∨ operation = "all" then
      dropCollM (dropCollM (dropCollM (dropCollM st "congestion") "road") "regulation")
        "geography"
    else st
  let st2 := if operation = "1hour" ∨ operation = "all" then
      dropCollM (dropCollM st1 "congestion_1hour") "road_1hour"
    else st1
  if rowPrefixed operation then
    let parts := splitColon operation
    mongoDeleteRow st2 (parts.getD 1 "") (parts.getD 2 "")
  else st2

/-- Database commands issued by the relational loaders, abstracting the
SQL strings of the source. -/
inductive DbCmd where
  | createTable : String → DbCmd
  | createDistributed : String → DbCmd
  | executeBatchInsert : String → Nat → DbCmd
  | createTempTable : String → DbCmd
  | writeTempCsv : String → DbCmd
  | copyFromCsv : String → DbCmd
  | insertSelectConflictSkip : String → String → DbCmd
  | dropTableIfExists : String → DbCmd
  | removeFileIfExists : String → DbCmd
  | commitTxn : DbCmd
deriving DecidableEq

/-- Whether a command is a row-by-row parameterized batched insert
(cursor.executemany). -/
def isBatchInsertCmd : DbCmd → Bool
  | DbCmd.executeBatchInsert _ _ => true
  | _ => false

/-- Whether a command belongs to a staged bulk load (staging-table
creation or the stream-oriented COPY). -/
def isStagingCmd : DbCmd → Bool
  | DbCmd.createTempTable _ => true
  | DbCmd.copyFromCsv _ => true
  | DbCmd.insertSelectConflictSkip _ _ => true
  | _ => false

/-- Command trace of single/PostgreSQL.py insert_5min: table creation and
commit, then per chunk three cursor.executemany parameterized inserts
directly into the targets, then the final commit.  No staging structure
appears. -/
def singlePG5minTrace (chunks : List Chunk) : List DbCmd :=
  [DbCmd.createTable "congestion", DbCmd.createTable "road",
   DbCmd.createTable "regulation", DbCmd.commitTxn] ++
  (chunks.flatMap (fun ch =>
    [DbCmd.executeBatchInsert "congestion" ch.length,
     DbCmd.executeBatchInsert "road" ch.length,
     DbCmd.executeBatchInsert "regulation" ch.length])) ++
  [DbCmd.commitTxn]

/-- Command trace of one multi/DistributedPostgreSQL.py insert_data call:
create the TEMP staging table, write the CSV buffer, COPY it into staging,
merge with ON CONFLICT (id) DO NOTHING, commit, then the finally-block
cleanup. -/
def distInsertDataTrace (table : String) : List DbCmd :=
  [DbCmd.createTempTable ("temp_" ++ table),
   DbCmd.writeTempCsv ("temp_" ++ table ++ ".csv"),
   DbCmd.copyFromCsv ("temp_" ++ table),
   DbCmd.insertSelectConflictSkip table ("temp_" ++ table),
   DbCmd.commitTxn,
   DbCmd.dropTableIfExists ("temp_" ++ table),
   DbCmd.removeFileIfExists ("temp_" ++ table ++ ".csv")]

/-- One row of an external (Ignite) result file:
{Operation, Time (ms), USS (KB), RSS (KB)}. -/
structure IgRow where
  op : String
  timeMs : ℚ
  ussKB : ℚ
  rssKB : ℚ
deriving DecidableEq

/-- A converted external sample {Time (s), USS (MB), RSS (MB)}. -/
structure IgVals where
  time : ℚ
  uss : ℚ
  rss : ℚ
deriving DecidableEq

/-- Performance.py lines 63-66 and 70: operation_mapping.get(op, op) — the
tokens "1hour" and "5min_result.csv" are mapped to the internal insert
keys; any other token is returned unchanged. -/
def opNormalize (s : String) : String :=
  if s = "1hour" then "insert_1hour"
  else if s = "5min_result.csv" then "insert_5min"
  else s

/-- Performance.py lines 70-75: one row updates the accumulated mapping at
the normalized key with the unit-converted values (a later row with the
same key overwrites an earlier one). -/
def loadIgRow (acc : List (String × IgVals)) (r : IgRow) : List (String × IgVals) :=
  assocSet acc (opNormalize r.op)
    ⟨r.timeMs / 1000, r.ussKB / 1024, r.rssKB / 1024⟩

/-- Performance.py load_ignite_results over the concatenated rows of all
result files. -/
def load_ignite_results (rows : List IgRow) : List (String × IgVals) :=
  rows.foldl loadIgRow []

/-- The harness state: the three per-operation maps from backend label to
sample value (Performance.py __init__). -/
structure Perf where
  operation_times : List (String × List (String × ℚ))
  operation_uss : List (String × List (String × ℚ))
  operation_rss : List (String × List (String × ℚ))
deriving DecidableEq

def initOps : List (String × List (String × ℚ)) :=
  [("insert_5min", []), ("insert_1hour", []), ("read_5min", []),
   ("read_1hour", []), ("delete", [])]

def initPerf : Perf := ⟨initOps, initOps, initOps⟩

/-- Whether the operation key exists in all three outer dicts (otherwise a
Python assignment self.operation_times[op][label] = v raises KeyError). -/
def hasOpKey (p : Perf) (op : String) : Bool :=
  (assocGet p.operation_times op).isSome &&
  (assocGet p.operation_uss op).isSome &&
  (assocGet p.operation_rss op).isSome

/-- self.operation_times[op][label] = t; ...uss[op][label] = u;
...rss[op][label] = r. -/
def recordTriple (p : Perf) (op label : String) (t u r : ℚ) : Perf :=
  { operation_times :=
      assocSet p.operation_times op
        (assocSet ((assocGet p.operation_times op).getD []) label t),
    operation_uss :=
      assocSet p.operation_uss op
        (assocSet ((assocGet p.operation_uss op).getD []) label u),
    operation_rss :=
      assocSet p.operation_rss op
        (assocSet ((assocGet p.operation_rss op).getD []) label r) }

/-- Performance.py integrate_ignite_results: merges the external mapping
under the fixed label "Ignite"; an unknown operation key raises KeyError
(modelled as none). -/
def integrate_ignite_results (p : Perf) (res : List (String × IgVals)) : Option Perf :=
  res.foldl
    (fun acc kv =>
      match acc with
      | none => none
      | some pp =>
          if hasOpKey pp kv.1 then
            some (recordTriple pp kv.1 "Ignite" kv.2.time kv.2.uss kv.2.rss)
          else none)
    (some p)

/-- Performance.py summarize_results prints the three maps; the rendered
content is exactly this triple. -/
def summarize_results (p : Perf) :
    List (String × List (String × ℚ)) × List (String × List (String × ℚ)) ×
      List (String × List (String × ℚ)) :=
  (p.operation_times, p.operation_uss, p.operation_rss)

/-- Lookup of one sample: m[op][label]. -/
def sampleLookup (m : List (String × List (String × ℚ))) (op label : String) : Option ℚ :=
  (assocGet m op).bind (fun inner => assocGet inner label)

/-- What the clock and psutil would report for one successful backend
call: elapsed seconds, RSS MB, USS MB. -/
structure MeasEnv where
  elapsed : ℚ
  rss : ℚ
  uss : ℚ
deriving DecidableEq

/-- A backend instance as the harness sees it: its class name
(type(db).__name__) and, per operation name, either the measurement of a
successful call or the exception it raises. -/
structure DBI where
  className : String
  beh : String → Except String MeasEnv

/-- Performance.py measure_performance: calls the operation (an exception
propagates uncaught, recording nothing), then records the three samples
keyed by (operation name, class name). -/
def measure_performance (p : Perf) (db : DBI) (opName : String) : Except String Perf :=
  match db.beh opName with
  | Except.error e => Except.error e
  | Except.ok env =>
      if hasOpKey p opName then
        Except.ok (recordTriple p opName db.className env.elapsed env.uss env.rss)
      else Except.error "KeyError"

/-- Performance.py run, measurement loop (lines 177-181, with both file
paths provided): for each backend, measure insert_5min then insert_1hour;
the first uncaught exception aborts the whole loop, leaving the samples
recorded so far. -/
def runAll (p : Perf) (dbs : List DBI) : Perf × Option String :=
  match dbs with
  | [] => (p, none)
  | db :: rest =>
      match measure_performance p db "insert_5min" with
      | Except.error e => (p, some e)
      | Except.ok q =>
          match measure_performance q db "insert_1hour" with
          | Except.error e => (q, some e)
          | Except.ok q2 => runAll q2 rest

theorem runAll_append (p : Perf) (xs ys : List DBI) :
    runAll p (xs ++ ys) =
      match runAll p xs with
      | (q, none) => runAll q ys
      | (q, some e) => (q, some e) := by
  induction xs generalizing p with
  | nil => simp [runAll]
  | cons db rest ih =>
      cases h1 : measure_performance p db "insert_5min" with
      | error e => simp [runAll, h1]
      | ok q =>
          cases h2 : measure_performance q db "insert_1hour" with
          | error e => simp [runAll, h1, h2]
          | ok q2 =>
              simp only [List.cons_append, runAll, h1, h2]
              exact ih q2

theorem enumF_mem {α : Type} (l : List α) :
    ∀ (n : Nat) (p : Nat × α), p ∈ enumF n l → p.2 ∈ l := by
  induction l with
  | nil => intro n p h; simp [enumF] at h
  | cons a as ih =>
      intro n p h
      simp only [enumF, List.mem_cons] at h
      cases h with
      | inl he => subst he; simp
      | inr ht => simp [ih (n + 1) p ht]

theorem ne_of_rowPrefixed {s t : String} (h : rowPrefixed s = true)
    (ht : rowPrefixed t = false) : s ≠ t := by
  intro he
  subst he
  rw [h] at ht
  exact Bool.noConfusion ht

theorem sampleLookup_recordTriple_times (p : Perf) (op label : String) (t u r : ℚ) :
    sampleLookup (recordTriple p op label t u r).operation_times op label = some t := by
  simp [sampleLookup, recordTriple, assocGet_set_self]

theorem sampleLookup_recordTriple_uss (p : Perf) (op label : String) (t u r : ℚ) :
    sampleLookup (recordTriple p op label t u r).operation_uss op label = some u := by
  simp [sampleLookup, recordTriple, assocGet_set_self]

theorem sampleLookup_recordTriple_rss (p : Perf) (op label : String) (t u r : ℚ) :
    sampleLookup (recordTriple p op label t u r).operation_rss op label = some r := by
  simp [sampleLookup, recordTriple, assocGet_set_self]

/-- A one-row 5-minute chunk with every source column, used as a concrete
failing input. -/
def row5min : Record :=
  [("Unnamed: 0", Val.vint 1), ("offer_date", Val.vstr "2024-01-01"),
   ("offer_day", Val.vint 1), ("offer_hour", Val.vint 2),
   ("event_no", Val.vstr "e1"), ("congestion_degree", Val.vint 3),
   ("congestion_length", Val.vint 4), ("pref_no", Val.vint 5),
   ("course_no", Val.vint 6), ("course_name", Val.vstr "c"),
   ("dir_name", Val.vstr "d"), ("low_kp", Val.vint 7),
   ("low_latitude", Val.vint 8), ("low_longitude", Val.vint 9),
   ("low_altitude", Val.vint 10), ("low_spot_name", Val.vstr "ls"),
   ("low_cityname_code", Val.vstr "lc"), ("up_kp", Val.vint 11),
   ("up_latitude", Val.vint 12), ("up_longitude", Val.vint 13),
   ("up_altitude", Val.vint 14), ("up_spot_name", Val.vstr "us"),
   ("up_cityname_code", Val.vstr "uc"), ("event_seq", Val.vint 15),
   ("regulation", Val.vstr "r"), ("link_distance", Val.vint 16),
   ("reason", Val.vstr "rs")]

/-- C1 (amended): insert_5min is idempotent for the relational backends —
rerunning the same chunk sequence leaves every table unchanged, because a
row whose id already exists in the target is skipped by
ON CONFLICT (id) DO NOTHING and never overwritten.  (The document backends
append documents unconditionally; see the counterexample.) -/
theorem insert5min_relational_idempotent :
    (∀ (db : PGDB5) (chunks : List Chunk),
        pgInsert5min (pgInsert5min db chunks) chunks = pgInsert5min db chunks) ∧
    (∀ (db : PGDB5) (chunks : List Chunk),
        distInsert5min (distInsert5min db chunks) chunks = distInsert5min db chunks) ∧
    (∀ (t : List Record) (r : Record),
        idPresent t (rowIdOf r) = true → pgInsertRow t r = t) := by
  refine ⟨?_, ?_, ?_⟩
  · intro db chunks
    rw [pgInsert5min_decomp chunks db, pgInsert5min_decomp chunks]
    simp [insertFold_idem]
  · intro db chunks
    rw [distInsert5min_decomp chunks db, distInsert5min_decomp chunks]
    simp [insertFold_idem]
  · intro t r h
    exact pgInsertRow_present t r h

/-- Witness for C1's theorem at concrete inputs: a duplicate id leaves the
table unchanged, and re-inserting a concrete chunk sequence is a no-op. -/
theorem insert5min_relational_idempotent_witness :
    pgInsertRow [[("id", Val.vint 1), ("offer_date", Val.vstr "a")]]
        [("id", Val.vint 1), ("offer_date", Val.vstr "b")] =
      [[("id", Val.vint 1), ("offer_date", Val.vstr "a")]] ∧
    pgInsert5min (pgInsert5min ⟨[], [], []⟩ [[row5min]]) [[row5min]] =
      pgInsert5min ⟨[], [], []⟩ [[row5min]] :=
  ⟨insert5min_relational_idempotent.2.2 _ _ (by decide),
   insert5min_relational_idempotent.1 ⟨[], [], []⟩ [[row5min]]⟩

/-- C1 counterexample: on the document backend, insert_5min called twice
against an empty target does not yield the same row count as calling it
once — insert_many assigns fresh _id values and never checks the id field,
so the second call doubles the congestion collection. -/
theorem mongo_insert5min_not_idempotent :
    (getCollM (mongoInsert5min 100 (mongoInsert5min 100 emptyM [[row5min]]) [[row5min]])
        "congestion").length ≠
      (getCollM (mongoInsert5min 100 emptyM [[row5min]]) "congestion").length ∧
    (getCollM (mongoInsert5min 100 (mongoInsert5min 100 emptyM [[row5min]]) [[row5min]])
        "congestion").length = 2 ∧
    (getCollM (mongoInsert5min 100 emptyM [[row5min]]) "congestion").length = 1 := by
  decide

/-- C2: the distributed relational backend's insert_data releases the
staging table and the temporary CSV buffer on every exit path — normal
return or an exception injected at the CSV write, the COPY load, or the
merge — and the injected exception still propagates (the load is not
silently retried); the success path merges with duplicate-id skipping. -/
theorem insert_data_always_releases :
    ∀ (t d : List Record) (failAt : Option Nat),
      ((runInsertData t d failAt).1.stagingExists = false ∧
       (runInsertData t d failAt).1.stagingRows = [] ∧
       (runInsertData t d failAt).1.tempFileExists = false) ∧
      (∀ k, k < 4 → (runInsertData t d (some k)).2 = false) ∧
      ((runInsertData t d none).2 = true ∧
       (runInsertData t d none).1.target = pgInsertMany t d) := by
  intro t d failAt
  refine ⟨⟨rfl, rfl, rfl⟩, ?_, rfl, rfl⟩
  intro k hk
  interval_cases k <;> rfl

/-- Witness for C2's theorem: a failure injected at the merge step of a
concrete load still reports failure while the staging structures are gone. -/
theorem insert_data_always_releases_witness :
    (runInsertData [] [[("id", Val.vint 1)]] (some 3)).2 = false ∧
    (runInsertData [] [[("id", Val.vint 1)]] (some 3)).1.stagingExists = false ∧
    (runInsertData [] [[("id", Val.vint 1)]] (some 3)).1.tempFileExists = false :=
  ⟨(insert_data_always_releases [] [[("id", Val.vint 1)]] (some 3)).2.1 3 (by decide),
   (insert_data_always_releases [] [[("id", Val.vint 1)]] (some 3)).1.1,
   (insert_data_always_releases [] [[("id", Val.vint 1)]] (some 3)).1.2.2⟩

/-- C3 (amended): only the distributed relational backend loads a chunk by
the staged-merge algorithm — its command trace creates a staging TEMP
table, bulk-loads it via the stream-oriented COPY, merges with
ON CONFLICT (id) DO NOTHING, and issues no cursor.executemany; the merge
inserts exactly the rows whose id is absent.  The single-node relational
backend instead issues a row-by-row parameterized executemany per chunk
and never creates a staging structure. -/
theorem staged_merge_only_distributed :
    (∀ table : String,
        DbCmd.createTempTable ("temp_" ++ table) ∈ distInsertDataTrace table ∧
        DbCmd.copyFromCsv ("temp_" ++ table) ∈ distInsertDataTrace table ∧
        DbCmd.insertSelectConflictSkip table ("temp_" ++ table) ∈ distInsertDataTrace table ∧
        (distInsertDataTrace table).all (fun cmd => !(isBatchInsertCmd cmd)) = true) ∧
    (∀ t d : List Record, (runInsertData t d none).1.target = pgInsertMany t d) ∧
    (∀ (chunks : List Chunk) (ch : Chunk), ch ∈ chunks →
        DbCmd.executeBatchInsert "congestion" ch.length ∈ singlePG5minTrace chunks) ∧
    (∀ chunks : List Chunk,
        (singlePG5minTrace chunks).all (fun cmd => !(isStagingCmd cmd)) = true) := by
  refine ⟨?_, ?_, ?_, ?_⟩
  · intro table
    refine ⟨by simp [distInsertDataTrace], by simp [distInsertDataTrace],
            by simp [distInsertDataTrace], rfl⟩
  · intro t d; rfl
  · intro chunks ch hmem
    simp only [singlePG5minTrace, List.mem_append]
    left; right
    rw [List.mem_flatMap]
    exact ⟨ch, hmem, by simp⟩
  · intro chunks
    simp only [List.all_eq_true, singlePG5minTrace]
    intro cmd hcmd
    simp only [List.mem_append, List.mem_flatMap, List.mem_cons] at hcmd
    rcases hcmd with ((h | h | h | h | h) | ⟨ch, _, h | h | h | h⟩) | (h | h) <;>
      first
        | (subst h; rfl)
        | simp at h

/-- Witness for C3's theorem at concrete inputs: the distributed trace for
the congestion table stages and copies, and the single-node trace for a
concrete one-row chunk contains its executemany. -/
theorem staged_merge_only_distributed_witness :
    DbCmd.copyFromCsv "temp_congestion" ∈ distInsertDataTrace "congestion" ∧
    DbCmd.executeBatchInsert "congestion" 1 ∈ singlePG5minTrace [[row5min]] :=
  ⟨(staged_merge_only_distributed.1 "congestion").2.1,
   staged_merge_only_distributed.2.2.1 [[row5min]] [row5min] (by decide)⟩

/-- C3 counterexample: the single-node relational backend does not use the
staged-merge algorithm — its insert_5min trace on a one-row chunk contains
a row-by-row parameterized executemany and no staging or COPY command. -/
theorem single_pg_rowwise_no_staging :
    (singlePG5minTrace [[row5min]]).any isBatchInsertCmd = true ∧
    (singlePG5minTrace [[row5min]]).any isStagingCmd = false := by
  decide

/-- A concrete hourly source row that carries every hourly column except
id (so the id must be synthesized). -/
def row1h : Record :=
  [("time", Val.vstr "t"), ("allCount", Val.vint 1), ("lightCongestion", Val.vint 2),
   ("heavyCongestion", Val.vint 3), ("averageLength", Val.vint 4),
   ("maxLength", Val.vint 5), ("congestionTime", Val.vint 6),
   ("congestionAmount", Val.vint 7), ("linkLength", Val.vint 8),
   ("roadName", Val.vstr "r"), ("direction", Val.vstr "d"),
   ("dwLocation", Val.vstr "dl"), ("dwLatitude", Val.vint 9),
   ("dwLongitude", Val.vint 10), ("upLocation", Val.vstr "ul"),
   ("upLatitude", Val.vint 11), ("upLongitude", Val.vint 12)]

/-- C4 (amended): when id is absent from the source, every backend
synthesizes it as the 1-based row position within the current chunk, and
the relational targets stay id-unique because the merge skips duplicate
ids.  (Synthesized ids restart at 1 in every chunk, so the document
targets can receive duplicate ids; see the counterexample.) -/
theorem id_synthesis_and_relational_uniqueness :
    (∀ (ch : Chunk) (i : Nat) (r : Record),
        (∀ row ∈ ch, assocGet row "id" = none) → ch[i]? = some r →
        ∃ r2, (addIdIfMissing ch)[i]? = some r2 ∧
          assocGet r2 "id" = some (Val.vint (Int.ofNat i + 1))) ∧
    (∀ (t : List Record) (rs : List Record),
        idNodup t → idNodup (pgInsertMany t rs)) := by
  refine ⟨?_, ?_⟩
  · intro ch i r hnone hi
    refine ⟨r ++ [("id", Val.vint (Int.ofNat i + 1))],
            addIdIfMissing_get_missing ch i r hnone hi, ?_⟩
    have hr : r ∈ ch := by
      have := List.getElem?_eq_some_iff.mp hi
      obtain ⟨hlt, hget⟩ := this
      exact hget ▸ List.getElem_mem hlt
    rw [assocGet_append_right r _ "id" (hnone r hr)]
    simp [assocGet]
  · intro t rs h
    exact idNodup_insertMany rs t h

/-- Witness for C4's theorem: the single hourly row gets id 1, and a
concrete duplicate-free table stays duplicate-free after a conflicting
insert. -/
theorem id_synthesis_and_relational_uniqueness_witness :
    (∃ r2, (addIdIfMissing [row1h])[0]? = some r2 ∧
        assocGet r2 "id" = some (Val.vint 1)) ∧
    idNodup (pgInsertMany [[("id", Val.vint 1)]] [[("id", Val.vint 1)]]) :=
  ⟨by
      have h := id_synthesis_and_relational_uniqueness.1 [row1h] 0 row1h
        (by decide) (by decide)
      simpa using h,
   id_synthesis_and_relational_uniqueness.2 [[("id", Val.vint 1)]]
     [[("id", Val.vint 1)]] (by simp [idNodup])⟩

set_option maxRecDepth 100000 in
/-- C4 counterexample: a 101-row id-less hourly file is read in chunks of
100 by the document backend, each chunk synthesizes ids from 1, and the
congestion_1hour collection ends with two documents whose id is 1 — the id
is not unique within its target. -/
theorem mongo_insert1hour_duplicate_ids :
    collIdsUnique
      (mongoInsert1hour 100 emptyM [List.replicate 100 row1h, [row1h]])
      "congestion_1hour" = false := by
  decide

/-- In a road-hourly record (the road1hCols selection of an arbitrary row,
relabelled by road1hRenames), the renamed key of each selected column
holds exactly that column's selected value. -/
theorem assocGet_renameRoad (r : Record) (col : String) (hmem : col ∈ road1hCols) :
    assocGet (renameRec road1hRenames
        (road1hCols.map (fun c2 => (c2, (assocGet r c2).getD Val.vnull))))
      ((assocGet road1hRenames col).getD col) =
      some ((assocGet r col).getD Val.vnull) := by
  simp only [road1hCols, List.mem_cons, List.not_mem_nil, or_false] at hmem
  rcases hmem with rfl | rfl | rfl | rfl | rfl | rfl | rfl | rfl | rfl <;>
    simp [renameRec, road1hRenames, road1hCols, assocGet]

/-- C6 (amended): insert_1hour maps each chunk to the two hourly record
sets, preserving row count and row order in both (the value of each
selected source column at row i is carried to record i — under the
renamed label for the road-hourly set); every required column other than
id that is missing from the source is filled with the null sentinel in the
congestion-hourly records.  (A missing id is synthesized, not null-filled;
see the counterexample.) -/
theorem insert_1hour_mapping_nullfill_order :
    (∀ ch : Chunk, (cong1hRecords ch).length = ch.length ∧
                   (road1hRecords ch).length = ch.length) ∧
    (∀ (ch : Chunk) (col : String), col ∈ required1h → col ≠ "id" →
        (∀ r ∈ ch, assocGet r col = none) →
        ∀ rec ∈ cong1hRecords ch, assocGet rec col = some Val.vnull) ∧
    (∀ (ch : Chunk) (i : Nat) (row : Record) (col : String) (v : Val),
        ch[i]? = some row → col ∈ required1h → assocGet row col = some v →
        ∃ rec, (cong1hRecords ch)[i]? = some rec ∧ assocGet rec col = some v) ∧
    (∀ (ch : Chunk) (i : Nat) (row : Record) (col : String) (v : Val),
        ch[i]? = some row → col ∈ road1hCols → assocGet row col = some v →
        ∃ rec, (road1hRecords ch)[i]? = some rec ∧
          assocGet rec ((assocGet road1hRenames col).getD col) = some v) := by
  refine ⟨?_, ?_, ?_, ?_⟩
  · intro ch
    constructor
    · simp [cong1hRecords, prep1hour, selectCols_length, ensureRequired_length,
            addIdIfMissing_length]
    · simp [road1hRecords, prep1hour, renameChunk_length, selectCols_length,
            ensureRequired_length, addIdIfMissing_length]
  · intro ch col hcolmem hcolid hnone rec hrec
    have hfill : ∀ r ∈ prep1hour ch, assocGet r col = some Val.vnull := by
      refine ensureRequired_fills required1h (addIdIfMissing ch) col hcolmem ?_
      intro r hr
      by_cases hcol : Chunk.hasCol ch "id"
      · rw [addIdIfMissing, if_pos hcol] at hr
        exact hnone r hr
      · rw [addIdIfMissing, if_neg hcol] at hr
        simp only [List.mem_map] at hr
        obtain ⟨p, hp, rfl⟩ := hr
        have hp2 : p.2 ∈ ch := enumF_mem ch 0 p hp
        rw [assocGet_append_right p.2 _ col (hnone p.2 hp2)]
        have hidcol : ¬ ("id" = col) := fun he => hcolid he.symm
        simp [assocGet, hidcol]
    simp only [cong1hRecords, selectCols, List.mem_map] at hrec
    obtain ⟨r, hr, rfl⟩ := hrec
    rw [assocGet_selRow required1h r col hcolmem, hfill r hr]
    rfl
  · intro ch i row col v hi hcolmem hval
    obtain ⟨suf, hsuf⟩ := ensureRequired_shape required1h (addIdIfMissing ch)
    obtain h1 | h1 := addIdIfMissing_get ch i row hi
    · refine ⟨required1h.map (fun col2 =>
          (col2, (assocGet (row ++ suf) col2).getD Val.vnull)), ?_, ?_⟩
      · rw [cong1hRecords, selectCols_get, prep1hour, hsuf, List.getElem?_map, h1]
        rfl
      · rw [assocGet_selRow required1h (row ++ suf) col hcolmem,
            assocGet_append_left row suf col v hval]
        rfl
    · refine ⟨required1h.map (fun col2 =>
          (col2, (assocGet ((row ++ [("id", Val.vint (Int.ofNat i + 1))]) ++ suf)
            col2).getD Val.vnull)), ?_, ?_⟩
      · rw [cong1hRecords, selectCols_get, prep1hour, hsuf, List.getElem?_map, h1]
        rfl
      · rw [assocGet_selRow required1h _ col hcolmem,
            assocGet_append_left _ suf col v
              (assocGet_append_left row _ col v hval)]
        rfl
  · intro ch i row col v hi hcolmem hval
    obtain ⟨suf, hsuf⟩ := ensureRequired_shape required1h (addIdIfMissing ch)
    obtain h1 | h1 := addIdIfMissing_get ch i row hi
    · refine ⟨renameRec road1hRenames (road1hCols.map (fun c2 =>
          (c2, (assocGet (row ++ suf) c2).getD Val.vnull))), ?_, ?_⟩
      · rw [road1hRecords, renameChunk, List.getElem?_map, selectCols_get,
            prep1hour, hsuf, List.getElem?_map, h1]
        rfl
      · rw [assocGet_renameRoad (row ++ suf) col hcolmem,
            assocGet_append_left row suf col v hval]
        rfl
    · refine ⟨renameRec road1hRenames (road1hCols.map (fun c2 =>
          (c2, (assocGet ((row ++ [("id", Val.vint (Int.ofNat i + 1))]) ++ suf)
            c2).getD Val.vnull))), ?_, ?_⟩
      · rw [road1hRecords, renameChunk, List.getElem?_map, selectCols_get,
            prep1hour, hsuf, List.getElem?_map, h1]
        rfl
      · rw [assocGet_renameRoad _ col hcolmem,
            assocGet_append_left _ suf col v
              (assocGet_append_left row _ col v hval)]
        rfl

/-- A concrete hourly source row lacking both id and maxLength. -/
def row1hNoMax : Record :=
  [("time", Val.vstr "t"), ("allCount", Val.vint 1), ("lightCongestion", Val.vint 2),
   ("heavyCongestion", Val.vint 3), ("averageLength", Val.vint 4),
   ("congestionTime", Val.vint 6), ("congestionAmount", Val.vint 7),
   ("linkLength", Val.vint 8), ("roadName", Val.vstr "r"),
   ("direction", Val.vstr "d"), ("dwLocation", Val.vstr "dl"),
   ("dwLatitude", Val.vint 9), ("dwLongitude", Val.vint 10),
   ("upLocation", Val.vstr "ul"), ("upLatitude", Val.vint 11),
   ("upLongitude", Val.vint 12)]

/-- Witness for C6's theorem: on a one-row chunk lacking maxLength, the
mapped congestion-hourly record carries the null sentinel at maxLength,
the time value of source row 0 reaches congestion-hourly record 0, and
the roadName value of source row 0 reaches road-hourly record 0 under the
renamed label roadname. -/
theorem insert_1hour_mapping_nullfill_order_witness :
    (∀ rec ∈ cong1hRecords [row1hNoMax], assocGet rec "maxLength" = some Val.vnull) ∧
    (∃ rec, (cong1hRecords [row1hNoMax])[0]? = some rec ∧
        assocGet rec "time" = some (Val.vstr "t")) ∧
    (∃ rec, (road1hRecords [row1hNoMax])[0]? = some rec ∧
        assocGet rec ((assocGet road1hRenames "roadName").getD "roadName") =
          some (Val.vstr "r")) :=
  ⟨insert_1hour_mapping_nullfill_order.2.1 [row1hNoMax] "maxLength"
      (by decide) (by decide) (by decide),
   insert_1hour_mapping_nullfill_order.2.2.1 [row1hNoMax] 0 row1hNoMax "time"
      (Val.vstr "t") (by decide) (by decide) (by decide),
   insert_1hour_mapping_nullfill_order.2.2.2 [row1hNoMax] 0 row1hNoMax "roadName"
      (Val.vstr "r") (by decide) (by decide) (by decide)⟩

/-- C6 counterexample: id is in the fixed required-column list, and on a
chunk whose source lacks id the mapped congestion-hourly record does not
carry the null sentinel there — the id is synthesized as 1 instead. -/
theorem cong1h_missing_id_not_null :
    assocGet ((cong1hRecords [row1h]).headD []) "id" = some (Val.vint 1) ∧
    ¬ assocGet ((cong1hRecords [row1h]).headD []) "id" = some Val.vnull := by
  decide

/-- A concrete relational state whose congestion table holds the row with
id 5. -/
def pgTablesWithRow5 : PgTables :=
  [("congestion", [[("id", Val.vint 5), ("event_no", Val.vstr "e")]])]

/-- C5 (amended): only the document backends implement the
row:<table>:<id> scope — there delete_one removes exactly the first
document whose _id equals the id substring and is a silent no-op when no
document matches; both relational backends have no row: branch at all, so
delete(row:...) is a silent no-op for them (even when the identified
record exists, as the counterexample shows). -/
theorem delete_row_scope_by_backend :
    (∀ (ts : PgTables) (op : String), rowPrefixed op = true → pgDelete ts op = ts) ∧
    (∀ (ts : PgTables) (op : String), rowPrefixed op = true → distPgDelete ts op = ts) ∧
    (∀ (docs : List (Val × Record)) (key : Val),
        (∀ d ∈ docs, d.1 ≠ key) → deleteOneDocs docs key = docs) ∧
    (∀ (pre : List (Val × Record)) (d : Val × Record) (post : List (Val × Record))
        (key : Val), d.1 = key → (∀ x ∈ pre, x.1 ≠ key) →
        deleteOneDocs (pre ++ d :: post) key = pre ++ post) ∧
    (∀ st : MState, mongoDelete st "row:congestion:7" =
        mongoDeleteRow st "congestion" "7") := by
  refine ⟨?_, ?_, ?_, ?_, ?_⟩
  · intro ts op h
    have h5 : op ≠ "5min" := ne_of_rowPrefixed h (by decide)
    have hall : op ≠ "all" := ne_of_rowPrefixed h (by decide)
    have h1h : op ≠ "1hour" := ne_of_rowPrefixed h (by decide)
    have hgeo : op ≠ "geography" := ne_of_rowPrefixed h (by decide)
    simp [pgDelete, h5, hall, h1h, hgeo]
  · intro ts op h
    have h5 : op ≠ "5min" := ne_of_rowPrefixed h (by decide)
    have hall : op ≠ "all" := ne_of_rowPrefixed h (by decide)
    have h1h : op ≠ "1hour" := ne_of_rowPrefixed h (by decide)
    simp [distPgDelete, h5, hall, h1h]
  · intro docs key h
    induction docs with
    | nil => rfl
    | cons d rest ih =>
        have hd : ¬ (d.1 = key) := h d (by simp)
        rw [deleteOneDocs, if_neg hd]
        rw [ih (fun x hx => h x (by simp [hx]))]
  · intro pre d post key hd hpre
    induction pre with
    | nil => simp [deleteOneDocs, hd]
    | cons x rest ih =>
        have hx : ¬ (x.1 = key) := hpre x (by simp)
        simp only [List.cons_append, deleteOneDocs, if_neg hx]
        have := ih (fun y hy => hpre y (by simp [hy]))
        simpa using this
  · intro st
    have c3 : rowPrefixed "row:congestion:7" = true := by decide
    have hsp : splitColon "row:congestion:7" = ["row", "congestion", "7"] := by decide
    simp [mongoDelete, c3, hsp]

/-- Witness for C5's theorem at concrete inputs: a row-scoped delete is a
no-op on both relational backends, delete_one with no matching _id changes
nothing, delete_one with a unique matching _id removes exactly it, and the
document backend routes row:congestion:7 to delete_one. -/
theorem delete_row_scope_by_backend_witness :
    pgDelete pgTablesWithRow5 "row:congestion:9" = pgTablesWithRow5 ∧
    distPgDelete pgTablesWithRow5 "row:congestion:9" = pgTablesWithRow5 ∧
    deleteOneDocs [(Val.vint 0, [("id", Val.vint 5)])] (Val.vstr "5") =
      [(Val.vint 0, [("id", Val.vint 5)])] ∧
    deleteOneDocs ([(Val.vstr "a", [])] ++ (Val.vstr "7", []) :: [(Val.vstr "b", [])])
        (Val.vstr "7") = [(Val.vstr "a", [])] ++ [(Val.vstr "b", [])] ∧
    mongoDelete emptyM "row:congestion:7" = mongoDeleteRow emptyM "congestion" "7" :=
  ⟨delete_row_scope_by_backend.1 pgTablesWithRow5 "row:congestion:9" (by decide),
   delete_row_scope_by_backend.2.1 pgTablesWithRow5 "row:congestion:9" (by decide),
   delete_row_scope_by_backend.2.2.1 [(Val.vint 0, [("id", Val.vint 5)])]
     (Val.vstr "5") (by decide),
   delete_row_scope_by_backend.2.2.2.1 [(Val.vstr "a", [])] (Val.vstr "7", [])
     [(Val.vstr "b", [])] (Val.vstr "7") (by decide) (by decide),
   delete_row_scope_by_backend.2.2.2.2 emptyM⟩

/-- C5 counterexample: on the relational backend the identified record
(id 5 in congestion) exists, yet delete("row:congestion:5") removes
nothing — the state is unchanged and the record is still present, so the
delete operation is not uniform across backends and does not remove the
identified record. -/
theorem pg_delete_row_noop_even_when_present :
    pgDelete pgTablesWithRow5 "row:congestion:5" = pgTablesWithRow5 ∧
    idPresent ((assocGet (pgDelete pgTablesWithRow5 "row:congestion:5")
        "congestion").getD []) (Val.vint 5) = true := by
  decide

/-- C7 (amended): load_ignite_results converts every row's Time (ms) to
seconds by dividing by 1000 and USS (KB)/RSS (KB) to MB by dividing by
1024, storing the converted triple under the normalized token; the tokens
"1hour" and "5min_result.csv" are normalized to the internal keys
insert_1hour and insert_5min, while any other operation token is passed
through unchanged (not normalized; see the counterexample). -/
theorem ignite_conversion_normalization :
    (∀ (rows : List IgRow) (r : IgRow),
        assocGet (load_ignite_results (rows ++ [r])) (opNormalize r.op) =
          some ⟨r.timeMs / 1000, r.ussKB / 1024, r.rssKB / 1024⟩) ∧
    opNormalize "1hour" = "insert_1hour" ∧
    opNormalize "5min_result.csv" = "insert_5min" ∧
    (∀ s : String, s ≠ "1hour" → s ≠ "5min_result.csv" → opNormalize s = s) := by
  refine ⟨?_, rfl, rfl, ?_⟩
  · intro rows r
    rw [load_ignite_results, List.foldl_append]
    simp only [List.foldl_cons, List.foldl_nil]
    rw [loadIgRow, assocGet_set_self]
  · intro s h1 h2
    simp [opNormalize, h1, h2]

/-- Witness for C7's theorem at concrete inputs: a "1hour" row lands under
insert_1hour with 1500 ms as 1.5 s and 2048 KB as 2 MB, and the token
"read_5min" passes through unchanged. -/
theorem ignite_conversion_normalization_witness :
    assocGet (load_ignite_results ([] ++ [⟨"1hour", 1500, 2048, 4096⟩]))
        (opNormalize "1hour") = some ⟨(3 : ℚ) / 2, 2, 4⟩ ∧
    opNormalize "read_5min" = "read_5min" :=
  ⟨by
      have h := ignite_conversion_normalization.1 [] ⟨"1hour", 1500, 2048, 4096⟩
      rw [h]
      norm_num,
   ignite_conversion_normalization.2.2.2 "read_5min" (by decide) (by decide)⟩

/-- C7 counterexample: a row whose operation token is "5min" is not
normalized to an internal insert key — load_ignite_results keys it by the
unchanged token "5min". -/
theorem ignite_unknown_token_not_normalized :
    (load_ignite_results [⟨"5min", 1000, 1024, 2048⟩]).map Prod.fst = ["5min"] ∧
    ("5min" : String) ≠ "insert_5min" ∧ ("5min" : String) ≠ "insert_1hour" := by
  refine ⟨?_, by decide, by decide⟩
  rfl

/-- C8: integrating the external mapping insert_5min → (2.0 s, 100 MB USS,
150 MB RSS) makes summarize_results show the sample under the fixed
"Ignite" label for insert_5min; and when a sample already exists under
that label for the operation, a later integrate overwrites it. -/
theorem integrate_external_sample_and_overwrite :
    (∃ st, integrate_ignite_results initPerf
        [("insert_5min", ⟨2, 100, 150⟩)] = some st ∧
      sampleLookup (summarize_results st).1 "insert_5min" "Ignite" = some 2 ∧
      sampleLookup (summarize_results st).2.1 "insert_5min" "Ignite" = some 100 ∧
      sampleLookup (summarize_results st).2.2 "insert_5min" "Ignite" = some 150) ∧
    (∀ (p p1 p2 : Perf) (op : String) (v0 v : IgVals),
        integrate_ignite_results p [(op, v0)] = some p1 →
        integrate_ignite_results p1 [(op, v)] = some p2 →
        sampleLookup p2.operation_times op "Ignite" = some v.time ∧
        sampleLookup p2.operation_uss op "Ignite" = some v.uss ∧
        sampleLookup p2.operation_rss op "Ignite" = some v.rss) := by
  constructor
  · refine ⟨_, rfl, ?_, ?_, ?_⟩ <;> decide
  · intro p p1 p2 op v0 v h1 h2
    simp only [integrate_ignite_results, List.foldl_cons, List.foldl_nil] at h2
    by_cases hk : hasOpKey p1 op
    · rw [if_pos hk] at h2
      obtain rfl : recordTriple p1 op "Ignite" v.time v.uss v.rss = p2 :=
        Option.some.inj h2
      exact ⟨sampleLookup_recordTriple_times p1 op "Ignite" v.time v.uss v.rss,
             sampleLookup_recordTriple_uss p1 op "Ignite" v.time v.uss v.rss,
             sampleLookup_recordTriple_rss p1 op "Ignite" v.time v.uss v.rss⟩
    · rw [if_neg hk] at h2
      exact Option.noConfusion h2

/-- Witness for C8's theorem: a concrete pair of integrations, the second
overwriting the first sample under the Ignite label. -/
theorem integrate_external_sample_and_overwrite_witness :
    sampleLookup
      ((recordTriple (recordTriple initPerf "insert_5min" "Ignite" 1 2 3)
        "insert_5min" "Ignite" 2 100 150)).operation_times "insert_5min" "Ignite" =
      some 2 := by
  have h := integrate_external_sample_and_overwrite.2 initPerf
    (recordTriple initPerf "insert_5min" "Ignite" 1 2 3)
    (recordTriple (recordTriple initPerf "insert_5min" "Ignite" 1 2 3)
      "insert_5min" "Ignite" 2 100 150)
    "insert_5min" ⟨1, 2, 3⟩ ⟨2, 100, 150⟩ rfl rfl
  exact h.1

/-- C9: the harness does not catch a measured operation's exception — the
failing measure_performance records no sample and returns the error, the
backend run aborts there (the queue after the failing backend is never
reached), and every sample recorded for operations completed before the
failure is still in place (the resulting state is exactly the state the
successful prefix produced). -/
theorem harness_uncaught_failure_aborts :
    ∀ (p q : Perf) (pre rest : List DBI) (db : DBI) (e : String),
      runAll p pre = (q, none) →
      db.beh "insert_5min" = Except.error e →
      measure_performance q db "insert_5min" = Except.error e ∧
      runAll p (pre ++ db :: rest) = (q, some e) := by
  intro p q pre rest db e h1 h2
  have hm : measure_performance q db "insert_5min" = Except.error e := by
    simp [measure_performance, h2]
  refine ⟨hm, ?_⟩
  rw [runAll_append, h1]
  simp [runAll, hm]

/-- A backend whose operations all succeed with a fixed measurement. -/
def dbOk : DBI := ⟨"PostgreSQL", fun _ => Except.ok ⟨1, 2, 3⟩⟩

/-- A backend whose operations all raise. -/
def dbBad : DBI := ⟨"MongoDB", fun _ => Except.error "boom"⟩

/-- Witness for C9's theorem: after one successful backend, the failing
backend aborts the run with its error while the prefix state is kept. -/
theorem harness_uncaught_failure_aborts_witness :
    runAll initPerf [dbOk, dbBad] = ((runAll initPerf [dbOk]).1, some "boom") :=
  (harness_uncaught_failure_aborts initPerf (runAll initPerf [dbOk]).1
    [dbOk] [] dbBad "boom" rfl rfl).2

/-- C10: the harness keys samples by type(db).__name__ alone, so when two
backend instances share a class name (the single-node and distributed
document backends are both classed MongoDB), measuring the same operation
on the second instance overwrites the first instance's sample instead of
recording it separately. -/
theorem class_name_collision_overwrites :
    ∀ (p q1 q2 : Perf) (db1 db2 : DBI) (op : String) (env1 env2 : MeasEnv),
      db1.className = db2.className →
      db1.beh op = Except.ok env1 →
      db2.beh op = Except.ok env2 →
      env1.elapsed ≠ env2.elapsed →
      measure_performance p db1 op = Except.ok q1 →
      measure_performance q1 db2 op = Except.ok q2 →
      sampleLookup q2.operation_times op db1.className = some env2.elapsed ∧
      sampleLookup q2.operation_times op db1.className ≠ some env1.elapsed := by
  intro p q1 q2 db1 db2 op env1 env2 hname hb1 hb2 hne hm1 hm2
  simp only [measure_performance, hb2] at hm2
  by_cases hk : hasOpKey q1 op
  · rw [if_pos hk] at hm2
    obtain rfl : recordTriple q1 op db2.className env2.elapsed env2.uss env2.rss = q2 :=
      Except.ok.inj hm2
    rw [hname]
    refine ⟨sampleLookup_recordTriple_times q1 op db2.className _ _ _, ?_⟩
    rw [sampleLookup_recordTriple_times q1 op db2.className _ _ _]
    intro hcontra
    exact hne (Option.some.inj hcontra).symm
  · rw [if_neg hk] at hm2
    exact Except.noConfusion hm2

/-- A second document backend carrying the same class name MongoDB but a
different measurement. -/
def dbBad2 : DBI := ⟨"MongoDB", fun _ => Except.ok ⟨7, 8, 9⟩⟩

/-- A single-node-style document backend that succeeds with measurement 1. -/
def dbMongoOne : DBI := ⟨"MongoDB", fun _ => Except.ok ⟨1, 2, 3⟩⟩

/-- Witness for C10's theorem: two concrete instances classed MongoDB; the
later measurement (7 s) replaces the earlier one (1 s) under the single
MongoDB key. -/
theorem class_name_collision_overwrites_witness :
    sampleLookup
      (recordTriple (recordTriple initPerf "insert_5min" "MongoDB" 1 3 2)
        "insert_5min" "MongoDB" 7 9 8).operation_times "insert_5min" "MongoDB" =
      some 7 ∧
    sampleLookup
      (recordTriple (recordTriple initPerf "insert_5min" "MongoDB" 1 3 2)
        "insert_5min" "MongoDB" 7 9 8).operation_times "insert_5min" "MongoDB" ≠
      some 1 :=
  class_name_collision_overwrites initPerf
    (recordTriple initPerf "insert_5min" "MongoDB" 1 3 2)
    (recordTriple (recordTriple initPerf "insert_5min" "MongoDB" 1 3 2)
      "insert_5min" "MongoDB" 7 9 8)
    dbMongoOne dbBad2 "insert_5min" ⟨1, 2, 3⟩ ⟨7, 8, 9⟩
    rfl rfl rfl (by norm_num) rfl rfl
